import Mathlib

/-!
Verification development for the redisgk Go library.

Shallow embedding conventions:
* Go strings are modelled as `List Char` (one element per rune); `goLen`
  computes the UTF-8 byte length, matching Go's `len` on a `string`.
  Byte-level slicing (`keys[:maxSizeData]`) is modelled at rune
  granularity by `takeBytes`, which agrees with Go byte slicing on all
  ASCII data (every input appearing in the claims is ASCII).
* Fallible Go functions returning `(T, error)` become `Except`/`Option`.
* Calls into the external Redis client (`client.Get`, `client.TTL`, ...)
  are modelled by explicit oracle parameters, since the store is an
  external collaborator.
* Wall-clock timestamps (`time.Now().UTC()`) are modelled as an abstract
  `Nat` tick passed in as a parameter.
-/

/-- Go string, one element per rune. -/
abbrev GoStr := List Char

/-- UTF-8 encoded size in bytes of one rune, as Go computes it. -/
def charBytes (c : Char) : Nat :=
  if c.toNat < 128 then 1
  else if c.toNat < 2048 then 2
  else if c.toNat < 65536 then 3
  else 4

/-- Byte length of a Go string (`len(s)` in Go). -/
def goLen : GoStr → Nat
  | [] => 0
  | c :: rest => charBytes c + goLen rest

/-- Byte-sliced truncation `s[:n]`, modelled at rune granularity: keep
runes while they fit in the first `n` bytes.  Identical to Go's byte
slicing whenever no multi-byte rune straddles the cut (always the case
for ASCII data). -/
def takeBytes : Nat → GoStr → GoStr
  | _, [] => []
  | n, c :: rest => if charBytes c ≤ n then c :: takeBytes (n - charBytes c) rest else []

/-- Rune lower-casing as performed by `strings.ToLower` in
`pathRedisController` (src/lib/utils.go line 26), modelled on the ASCII
range: bytes 65..90 are shifted to 97..122, anything else is kept. -/
def asciiToLower (c : Char) : Char :=
  if 65 ≤ c.toNat ∧ c.toNat ≤ 90 then Char.ofNat (c.toNat + 32) else c

/-- Character class of the regex `[\*\?\[\]\.]` in `pathRedisController`
(src/lib/utils.go line 29). -/
def isMetaChar (c : Char) : Bool :=
  (c == '*') || (c == '?') || (c == '[') || (c == ']') || (c == '.')

/-- `re01.ReplaceAllString(keys, "")` for the meta-character regex:
every matching character is deleted (src/lib/utils.go line 30). -/
def stripMeta (l : GoStr) : GoStr := l.filter (fun c => !(isMetaChar c))

/-- Worker for `collapseColons`.  The flag records whether the previous
input character belonged to a colon run whose single replacement colon
has already been emitted. -/
def collapseColonsAux : Bool → GoStr → GoStr
  | _, [] => []
  | inRun, c :: rest =>
    if c = ':' then
      if inRun then collapseColonsAux true rest
      else ':' :: collapseColonsAux true rest
    else c :: collapseColonsAux false rest

/-- `re02.ReplaceAllString(keys, ":")` for the regex `:{2,}`: every
maximal run of colons is replaced by a single colon (runs of length one
are left untouched by the regex and kept as-is here too)
(src/lib/utils.go lines 33-34). -/
def collapseColons (l : GoStr) : GoStr := collapseColonsAux false l

/-- `strings.ReplaceAll(keys, " ", "_")` (src/lib/utils.go line 37). -/
def replaceSpaces (l : GoStr) : GoStr := l.map (fun c => if c = ' ' then '_' else c)

/-- Cutset membership test for `strings.Trim(keys, ":")`. -/
def isColon (c : Char) : Bool := c == ':'

/-- Left half of `strings.Trim(keys, ":")`. -/
def trimLeftColons (l : GoStr) : GoStr := l.dropWhile isColon

/-- Right half of `strings.Trim(keys, ":")`. -/
def trimRightColons (l : GoStr) : GoStr := (l.reverse.dropWhile isColon).reverse

/-- `strings.Trim(keys, ":")` (src/lib/utils.go line 40). -/
def trimColons (l : GoStr) : GoStr := trimRightColons (trimLeftColons l)

/-- `const maxSizeData = int(512 * 1024 * 1024)`
(src/lib/expiration_manager.go blob line 278). -/
def maxSizeData : Nat := 512 * 1024 * 1024

/-- Final length guard of `pathRedisController`: `if len(keys) >
maxSizeData { keys = keys[:maxSizeData] }` (src/lib/utils.go
lines 43-46). -/
def truncateMax (l : GoStr) : GoStr :=
  if goLen l > maxSizeData then takeBytes maxSizeData l else l

/-- Normalization stages of `pathRedisController` before the length
guard, in source order: lower-case, strip meta-characters, collapse
colon runs, replace spaces by underscores, trim leading/trailing colons
(src/lib/utils.go lines 26-40). -/
def normalizePipeline (key : GoStr) : GoStr :=
  trimColons (replaceSpaces (collapseColons (stripMeta (key.map asciiToLower))))

/-- `pathRedisController` (src/lib/utils.go lines 21-49): returns `""`
for the empty key, otherwise runs the normalization stages and truncates
the result to `maxSizeData` bytes. -/
def pathRedisController (key : GoStr) : GoStr :=
  if key = [] then [] else truncateMax (normalizePipeline key)

/-- Error cases of `slicePathsConvertor` / `checkMaxSizeKey`, one
constructor per distinct `fmt.Errorf` return. -/
inductive KeyPathError where
  | nilSlice
  | emptySlice
  | emptyElement (i : Nat)
  | emptyResult
  | keySizeExceeded (n : Nat)
deriving DecidableEq

/-- Spec taxonomy: the `InvalidKeyPath` family covers every
normalization failure except the size ceiling. -/
def isInvalidKeyPathErr : Except KeyPathError GoStr → Bool
  | .error .nilSlice => true
  | .error .emptySlice => true
  | .error (.emptyElement _) => true
  | .error .emptyResult => true
  | _ => false

/-- Spec taxonomy: the `KeySizeExceeded` failure. -/
def isSizeExceededErr : Except KeyPathError GoStr → Bool
  | .error (.keySizeExceeded _) => true
  | _ => false

/-- `checkMaxSizeKey` (src/lib/expiration_manager.go blob lines
289-294): `some` error iff the key's byte length exceeds the 512 MiB
ceiling. -/
def checkMaxSizeKey (key : GoStr) : Option KeyPathError :=
  if goLen key > maxSizeData then some (.keySizeExceeded (goLen key)) else none

/-- Index of the first empty element, as computed by the
`for i, key := range keySlice` guard loop of `slicePathsConvertor`
(src/lib/utils.go lines 62-66). -/
def firstEmptyIdx : Nat → List GoStr → Option Nat
  | _, [] => none
  | i, k :: rest => if k = [] then some i else firstEmptyIdx (i + 1) rest

/-- `strings.Join(keySlice, sep)`. -/
def goJoin (sep : GoStr) : List GoStr → GoStr
  | [] => []
  | [k] => k
  | k :: rest => k ++ sep ++ goJoin sep rest

/-- `slicePathsConvertor` (src/lib/utils.go lines 52-82).  The input is
`Option`-wrapped to keep Go's distinction between a nil slice and an
empty one (both are rejected). -/
def slicePathsConvertor (keySlice : Option (List GoStr)) : Except KeyPathError GoStr :=
  match keySlice with
  | none => .error .nilSlice
  | some ks =>
    if ks.length = 0 then .error .emptySlice
    else
      match firstEmptyIdx 0 ks with
      | some i => .error (.emptyElement i)
      | none =>
        let keyPath := pathRedisController (goJoin [':'] ks)
        if keyPath = [] then .error .emptyResult
        else
          match checkMaxSizeKey keyPath with
          | some e => .error e
          | none => .ok keyPath

/-- Outcome of one `client.Get(ctx, key)` call against the external
store: a value, the `redis.Nil` not-found sentinel, or any other error
(timeout, transport failure). -/
inductive GetOutcome where
  | found (v : GoStr)
  | missing
  | failure
deriving DecidableEq

/-- Error side of the library's own value-read helpers. -/
inductive GetErr where
  | notFound
  | other
deriving DecidableEq

/-- `getKeyValue` (src/unnamed/part_003 lines 266-280): wraps one store
read (5 s timeout, timing not modelled); `redis.Nil` becomes a
"key not found" error, other failures an "failed to get key value"
error. -/
def getKeyValue (g : GoStr → GetOutcome) (key : GoStr) : Except GetErr GoStr :=
  match g key with
  | .found v => .ok v
  | .missing => .error .notFound
  | .failure => .error .other

/-- `getKeyValueBeforeExpiration` (src/lib/expiration_manager.go lines
145-159): same shape as `getKeyValue` but with a 50 ms timeout (timing
not modelled). -/
def getKeyValueBeforeExpiration (g : GoStr → GetOutcome) (key : GoStr) : Except GetErr GoStr :=
  match g key with
  | .found v => .ok v
  | .missing => .error .notFound
  | .failure => .error .other

/-- `EventTypeExpired` (src/lib/types.go line 31). -/
def EventTypeExpired : GoStr := "expired".toList

/-- `EventTypeCreated` (src/lib/types.go line 32). -/
def EventTypeCreated : GoStr := "created".toList

/-- `EventTypeUpdated` (src/lib/types.go line 33). -/
def EventTypeUpdated : GoStr := "updated".toList

/-- `EventTypeDeleted` (src/lib/types.go line 34). -/
def EventTypeDeleted : GoStr := "deleted".toList

/-- `EventTypeUnknown` (src/lib/types.go line 35). -/
def EventTypeUnknown : GoStr := "unknown".toList

/-- Modelled from the spec: the constant `EventTypeExpire` is used by
`processEventMessage` (src/unnamed/part_003 line 197) but its
declaration is in a `types.go` revision that is not among the source
files.  The spec's §3 enumeration lists this member as `ExpiredNotice`
("TTL-set signal, not true expiry"), a value distinct from the other
five; the string follows the channel-suffix naming convention of the
sibling constants (`:expire` → "expire"). -/
def EventTypeExpire : GoStr := "expire".toList

/-- One pub/sub message as delivered by `pubsub.Channel()`
(`redis.Message`, fields `Channel` and `Payload`). -/
structure RedisMessage where
  Channel : GoStr
  Payload : GoStr
deriving DecidableEq

/-- `KeyEvent` as constructed by `processEventMessage`
(src/unnamed/part_003 lines 219-225); this revision also records the
raw source channel. -/
structure KeyEvent where
  Key : GoStr
  Value : GoStr
  EventType : GoStr
  Timestamp : Nat
  Channel : GoStr
deriving DecidableEq

/-- `strings.HasPrefix(s, pre)`. -/
def hasPrefixGo (pre s : GoStr) : Bool := List.isPrefixOf pre s

/-- `strings.HasSuffix(s, suf)`. -/
def hasSuffixGo (suf s : GoStr) : Bool := List.isSuffixOf suf s

/-- `processEventMessage` (src/unnamed/part_003 lines 187-226): the
event type is decided purely from the channel name (prefix
`__keyevent@0__:` plus suffix dispatch); the payload is the key; the
value is reconstructed best-effort via `getKeyValue`, with the error
discarded (`value, _ = em.getKeyValue(key)`) so a failed read leaves
the empty string set at line 214. -/
def processEventMessage (g : GoStr → GetOutcome) (now : Nat) (msg : RedisMessage) : KeyEvent :=
  let channelName := msg.Channel
  let classified : GoStr × GoStr :=
    if hasPrefixGo ("__keyevent@0__:".toList) msg.Channel then
      ( if hasSuffixGo (":expire".toList) msg.Channel then EventTypeExpire
        else if hasSuffixGo (":expired".toList) msg.Channel then EventTypeExpired
        else if hasSuffixGo (":set".toList) msg.Channel then EventTypeCreated
        else if hasSuffixGo (":del".toList) msg.Channel then EventTypeDeleted
        else EventTypeUnknown
      , msg.Payload)
    else
      (EventTypeUnknown, msg.Payload)
  let value : GoStr :=
    match getKeyValue g classified.2 with
    | .ok v => v
    | .error _ => []
  ⟨classified.2, value, classified.1, now, channelName⟩

/-- Per-message emission decision of the receive loop `listenForEvents`
(src/unnamed/part_003 lines 172-181): the processed event is handed to
the channel send only when its type is not `EventTypeUnknown`; `none`
models "no send attempted".  The race between the send and context
cancellation is modelled separately by the `ListenerStep` transition
system. -/
def emittedEvent (g : GoStr → GetOutcome) (now : Nat) (msg : RedisMessage) : Option KeyEvent :=
  if (processEventMessage g now msg).EventType = EventTypeUnknown then none
  else some (processEventMessage g now msg)

/-- `KeyExpirationEvent` as constructed by `listenForExpirations`
(src/lib/expiration_manager.go lines 88-92). -/
structure KeyExpirationEvent where
  Key : GoStr
  Value : GoStr
  ExpiredAt : Nat
deriving DecidableEq

/-- Per-message behavior of `listenForExpirations`
(src/lib/expiration_manager.go lines 79-101): on a
`__keyevent@0__:expire` message the value is read best-effort (error
replaced by the empty string, lines 82-86) and the event is handed to
the channel send unconditionally; other channels produce nothing. -/
def processExpirationMessage (g : GoStr → GetOutcome) (now : Nat) (msg : RedisMessage) :
    Option KeyExpirationEvent :=
  if msg.Channel = "__keyevent@0__:expire".toList then
    some ⟨msg.Payload,
      (match getKeyValueBeforeExpiration g msg.Payload with
       | .ok v => v
       | .error _ => []),
      now⟩
  else none

/-- Channel list hardcoded by the listener manager's `start`
(src/unnamed/part_003 lines 143-148); the expiration-manager variant
subscribes to the first entry only (src/lib/expiration_manager.go
line 58).  No revision consults the configured db index here. -/
def subscribedChannels : List GoStr :=
  [ "__keyevent@0__:expire".toList
  , "__keyevent@0__:expired".toList
  , "__keyevent@0__:set".toList
  , "__keyevent@0__:del".toList ]

set_option linter.unusedVariables false in
/-- Decimal digits of a positive number, most significant first. -/
def decChars (n : Nat) : List Char :=
  if h : n = 0 then [] else decChars (n / 10) ++ [Nat.digitChar (n % 10)]
termination_by n
decreasing_by exact Nat.div_lt_self (Nat.pos_of_ne_zero h) (by omega)

/-- Decimal rendering of a natural number (no leading zeros). -/
def natToChars (n : Nat) : List Char := if n = 0 then ['0'] else decChars n

/-- Modelled from the spec: the store's keyspace-notification channel
name for database `db` (glossary "keyspace notification", §6
`ConfigureNotifications`/`Subscribe`) — Redis publishes key events of
database `db` on `__keyevent@<db>__:<suffix>`.  This names the external
feed; it is not repository code. -/
def keyeventChannel (db : Nat) (suffix : GoStr) : GoStr :=
  "__keyevent@".toList ++ natToChars db ++ "__:".toList ++ suffix

/-- `RedisAdditionalOptions` (src/lib/types.go lines 17-25); durations
are nanosecond counts (`time.Duration` is an int64). -/
structure RedisAdditionalOptions where
  DialTimeout : Int
  ReadTimeout : Int
  WriteTimeout : Int
  PoolSize : Int
  PoolTimeout : Int
  BaseCtx : Int
deriving DecidableEq

/-- `RedisConfConn` (src/lib/types.go lines 7-15). -/
structure RedisConfConn where
  Host : GoStr
  Port : Int
  User : GoStr
  Password : GoStr
  DB : Int
  AdditionalOptions : RedisAdditionalOptions
deriving DecidableEq

/-- Validation failures of `validateRedisConfConn`, one constructor per
distinct error return of the full revision (src/lib/expiration_manager.go
blob lines 210-239). -/
inductive ConfigError where
  | hostRequired
  | invalidHost (h : GoStr)
  | portRequired
  | portOutOfRange (p : Int)
  | portPrivileged
  | passwordRequired
  | dbNegative (d : Int)
deriving DecidableEq

/-- Character test of the domain-label loop in `isValidHost`
(src/lib/expiration_manager.go blob lines 264-267): lowercase ASCII
letters, digits, or a hyphen. -/
def isHostRune (c : Char) : Bool :=
  (97 ≤ c.toNat && c.toNat ≤ 122) || (48 ≤ c.toNat && c.toNat ≤ 57) || c == '-'

/-- Per-label checks of `isValidHost` (src/lib/expiration_manager.go
blob lines 259-273): length 1..63, valid characters, no leading or
trailing hyphen. -/
def validLabel (part : GoStr) : Bool :=
  if goLen part = 0 ∨ goLen part > 63 then false
  else if !(part.all isHostRune) then false
  else if part.head? == some '-' ∨ part.getLast? == some '-' then false
  else true

/-- `isValidHost` (src/lib/expiration_manager.go blob lines 242-276).
`net.ParseIP` is an external stdlib call, modelled by the oracle
`parseIPOk`. -/
def isValidHost (parseIPOk : GoStr → Bool) (host : GoStr) : Bool :=
  if host = [] then false
  else if host = "localhost".toList ∨ parseIPOk host then true
  else if goLen host > 253 then false
  else (List.splitOn '.' host).all validLabel

/-- `validateRedisConfConn`, full revision (src/lib/expiration_manager.go
blob lines 210-239): host non-empty and valid, port non-zero, in
1..65535 and not privileged (< 1024), password non-empty, db index
non-negative; `none` means the descriptor is accepted. -/
def validateRedisConfConn (parseIPOk : GoStr → Bool) (conf : RedisConfConn) :
    Option ConfigError :=
  if conf.Host = [] then some .hostRequired
  else if !(isValidHost parseIPOk conf.Host) then some (.invalidHost conf.Host)
  else if conf.Port = 0 then some .portRequired
  else if conf.Port < 1 ∨ conf.Port > 65535 then some (.portOutOfRange conf.Port)
  else if conf.Port < 1024 then some .portPrivileged
  else if conf.Password = [] then some .passwordRequired
  else if conf.DB < 0 then some (.dbNegative conf.DB)
  else none

/-- Program counter of the receive loop `listenForEvents`
(src/unnamed/part_003 lines 162-184): blocked in the outer `select`
(`waiting`), blocked in the inner send `select` (`sending`), or
returned — with `wg.Done()` executed — (`exited`). -/
inductive LoopPC where
  | waiting
  | sending
  | exited
deriving DecidableEq

/-- Progress of a `stop()` call (src/unnamed/part_003 lines 229-255):
not yet past the `isRunning` check (`idle`), `cancel()` executed and
blocked in `wg.Wait()` (`cancelRequested`), `wg.Wait()` returned
(`joined`), `close(keyEventChan)` executed (`closedDone`). -/
inductive StopPC where
  | idle
  | cancelRequested
  | joined
  | closedDone
deriving DecidableEq

/-- Joint state of the receive loop and one `stop()` caller:
`ctxCancelled` is the manager context, `chanClosed` the hand-off
channel `keyEventChan`. -/
structure ListenerState where
  loop : LoopPC
  stopPhase : StopPC
  ctxCancelled : Bool
  chanClosed : Bool
deriving DecidableEq

/-- Interleaving semantics of `listenForEvents` (src/unnamed/part_003
lines 162-184) against `stop()` (lines 229-255).  Loop transitions: a
message arrives and classifies as emittable (`recvMessage`, line 177
send reached), a message classifies Unknown and is dropped
(`recvDropped`), the outer or inner `select` takes `ctx.Done()`
(`recvCtxDone` line 170 / `sendCtxDone` line 178), or the consumer
reads an event (`sendDelivered`, line 177 completes).  Stop
transitions: `stopCancel` executes `em.cancel()` (line 243),
`stopJoin` is `wg.Wait()` returning (line 247) — enabled only once the
loop has exited, because the loop's deferred `wg.Done()` (line 165)
runs on exit — and `stopClose` executes `close(em.keyEventChan)`
(line 251). -/
inductive ListenerStep : ListenerState → ListenerState → Prop where
  | recvMessage (s : ListenerState) :
      s.loop = .waiting → ListenerStep s { s with loop := .sending }
  | recvDropped (s : ListenerState) :
      s.loop = .waiting → ListenerStep s s
  | recvCtxDone (s : ListenerState) :
      s.loop = .waiting → s.ctxCancelled = true → ListenerStep s { s with loop := .exited }
  | sendDelivered (s : ListenerState) :
      s.loop = .sending → ListenerStep s { s with loop := .waiting }
  | sendCtxDone (s : ListenerState) :
      s.loop = .sending → s.ctxCancelled = true → ListenerStep s { s with loop := .exited }
  | stopCancel (s : ListenerState) :
      s.stopPhase = .idle →
      ListenerStep s { s with ctxCancelled := true, stopPhase := .cancelRequested }
  | stopJoin (s : ListenerState) :
      s.stopPhase = .cancelRequested → s.loop = .exited →
      ListenerStep s { s with stopPhase := .joined }
  | stopClose (s : ListenerState) :
      s.stopPhase = .joined →
      ListenerStep s { s with chanClosed := true, stopPhase := .closedDone }

/-- Initial state: loop spawned by `start()` and blocked in its outer
`select`, no `stop()` progress, context live, channel open. -/
def listenerInit : ListenerState := ⟨.waiting, .idle, false, false⟩

/-- States reachable from `listenerInit` under any interleaving. -/
inductive ListenerReachable : ListenerState → Prop where
  | init : ListenerReachable listenerInit
  | step {s t : ListenerState} :
      ListenerReachable s → ListenerStep s t → ListenerReachable t

/-- Behavior of one public entry point when the receiver is `nil`:
returns the "instance is nil" error, returns a nil channel/value
without error, returns without doing anything, dereferences the nil
receiver (runtime fault), or — receiver non-nil — proceeds into the
body. -/
inductive NilCallResult where
  | instanceNilError
  | nilReturn
  | silentNoop
  | nilDereference
  | proceeds
deriving DecidableEq

/-- `SetObj`, guarded revision (src/lib/m_strings.go blob lines
227-261): `if v == nil` returns "RedisGk instance is nil". -/
def nilCallSetObj : Option Unit → NilCallResult
  | none => .instanceNilError
  | some _ => .proceeds

/-- `SetObj`, unguarded revision (src/lib/m_strings.go lines 12-42):
the first statement evaluates `v.baseCtx`, a nil-pointer dereference
when `v` is nil. -/
def nilCallSetObjUnguarded : Option Unit → NilCallResult
  | none => .nilDereference
  | some _ => .proceeds

/-- `SetString` (src/lib/m_strings.go blob lines 264-297). -/
def nilCallSetString : Option Unit → NilCallResult
  | none => .instanceNilError
  | some _ => .proceeds

/-- `GetObj` (src/lib/m_strings.go blob lines 300-331). -/
def nilCallGetObj : Option Unit → NilCallResult
  | none => .instanceNilError
  | some _ => .proceeds

/-- `GetString` (src/lib/m_strings.go blob lines 334-358). -/
def nilCallGetString : Option Unit → NilCallResult
  | none => .instanceNilError
  | some _ => .proceeds

/-- `Del` (src/lib/m_strings.go blob lines 361-393). -/
def nilCallDel : Option Unit → NilCallResult
  | none => .instanceNilError
  | some _ => .proceeds

/-- `FindKeyByPattern` (src/lib/m_strings.go blob lines 396-427):
`if v == nil || v.redisClient == nil` returns an error. -/
def nilCallFindKeyByPattern : Option Unit → NilCallResult
  | none => .instanceNilError
  | some _ => .proceeds

/-- `FindObj` (src/lib/m_strings.go blob lines 430-508). -/
def nilCallFindObj : Option Unit → NilCallResult
  | none => .instanceNilError
  | some _ => .proceeds

/-- `GetKeys` (src/lib/m_strings.go blob lines 511-543). -/
def nilCallGetKeys : Option Unit → NilCallResult
  | none => .instanceNilError
  | some _ => .proceeds

/-- `Exists` (src/lib/m_strings.go blob lines 546-565). -/
def nilCallExistsKey : Option Unit → NilCallResult
  | none => .instanceNilError
  | some _ => .proceeds

/-- `LPush` (src/lib/m_lists.go lines 10-41). -/
def nilCallLPush : Option Unit → NilCallResult
  | none => .instanceNilError
  | some _ => .proceeds

/-- `RPush` (src/lib/m_lists.go lines 44-75). -/
def nilCallRPush : Option Unit → NilCallResult
  | none => .instanceNilError
  | some _ => .proceeds

/-- `LPop` (src/lib/m_lists.go lines 78-100). -/
def nilCallLPop : Option Unit → NilCallResult
  | none => .instanceNilError
  | some _ => .proceeds

/-- `RPop` (src/lib/m_lists.go lines 103-125). -/
def nilCallRPop : Option Unit → NilCallResult
  | none => .instanceNilError
  | some _ => .proceeds

/-- `LRange` (src/lib/m_lists.go lines 128-147). -/
def nilCallLRange : Option Unit → NilCallResult
  | none => .instanceNilError
  | some _ => .proceeds

/-- `LLen` (src/lib/m_lists.go lines 150-169). -/
def nilCallLLen : Option Unit → NilCallResult
  | none => .instanceNilError
  | some _ => .proceeds

/-- `Close` (src/unnamed/part_000 lines 68-78): no nil guard; the first
statement reads `v.listenerKeyEventManager`, a nil-pointer dereference
when `v` is nil. -/
def nilCallClose : Option Unit → NilCallResult
  | none => .nilDereference
  | some _ => .proceeds

/-- `ListenChannelKeyEventManager` (src/unnamed/part_000 lines 82-90):
`if v == nil` returns a nil channel, not an error. -/
def nilCallListenChannelKeyEventManager : Option Unit → NilCallResult
  | none => .nilReturn
  | some _ => .proceeds

/-- `GetRedisClient` (src/unnamed/part_000 lines 93-95): no nil guard;
returns `v.redisClient`, a nil-pointer dereference when `v` is nil. -/
def nilCallGetRedisClient : Option Unit → NilCallResult
  | none => .nilDereference
  | some _ => .proceeds

/-- Manager `start` (src/unnamed/part_003 lines 129-132): `if em ==
nil` returns "listener key event manager is nil". -/
def nilCallManagerStart : Option Unit → NilCallResult
  | none => .instanceNilError
  | some _ => .proceeds

/-- Manager `stop` (src/unnamed/part_003 lines 229-232): `if em == nil`
returns silently — no error value exists on this signature. -/
def nilCallManagerStop : Option Unit → NilCallResult
  | none => .silentNoop
  | some _ => .proceeds

/-- Manager `getKeyEventChannel` (src/unnamed/part_003 lines 258-263):
`if em == nil` returns a nil channel, not an error. -/
def nilCallManagerGetKeyEventChannel : Option Unit → NilCallResult
  | none => .nilReturn
  | some _ => .proceeds

/-- Every public entry point of the facade and the manager, paired with
its modelled behavior on a nil receiver. -/
def publicSurfaceOnNil : List NilCallResult :=
  [ nilCallSetObj none
  , nilCallSetString none
  , nilCallGetObj none
  , nilCallGetString none
  , nilCallDel none
  , nilCallFindKeyByPattern none
  , nilCallFindObj none
  , nilCallGetKeys none
  , nilCallExistsKey none
  , nilCallLPush none
  , nilCallRPush none
  , nilCallLPop none
  , nilCallRPop none
  , nilCallLRange none
  , nilCallLLen none
  , nilCallClose none
  , nilCallListenChannelKeyEventManager none
  , nilCallGetRedisClient none
  , nilCallManagerStart none
  , nilCallManagerStop none
  , nilCallManagerGetKeyEventChannel none ]

/-- Adjacency relation "no two consecutive colons", the invariant
established by `collapseColons`. -/
def RNoRun (a b : Char) : Prop := ¬(a = ':' ∧ b = ':')

/-- Concrete store oracle: every read reports `redis.Nil`. -/
def getAlwaysMissing : GoStr → GetOutcome := fun _ => .missing

/-- Concrete store oracle: every read times out. -/
def getAlwaysFailing : GoStr → GetOutcome := fun _ => .failure

/-- Concrete `net.ParseIP` oracle: nothing parses as an IP literal. -/
def parseIPNone : GoStr → Bool := fun _ => false

theorem asciiToLower_shift_bounds :
    ∀ n < 91, 65 ≤ n → ¬(65 ≤ (Char.ofNat (n + 32)).toNat ∧ (Char.ofNat (n + 32)).toNat ≤ 90) := by
  decide

theorem asciiToLower_idem (c : Char) : asciiToLower (asciiToLower c) = asciiToLower c := by
  unfold asciiToLower
  by_cases h : 65 ≤ c.toNat ∧ c.toNat ≤ 90
  · rw [if_pos h, if_neg (asciiToLower_shift_bounds c.toNat (by omega) h.1)]
  · rw [if_neg h, if_neg h]

theorem map_eq_self_of {f : Char → Char} {l : GoStr} (h : ∀ c ∈ l, f c = c) :
    l.map f = l := by
  induction l with
  | nil => rfl
  | cons c rest ih =>
    simp only [List.map_cons]
    rw [h c (List.mem_cons_self c rest), ih (fun d hd => h d (List.mem_cons_of_mem c hd))]

theorem goLen_append (l₁ l₂ : GoStr) : goLen (l₁ ++ l₂) = goLen l₁ + goLen l₂ := by
  induction l₁ with
  | nil => simp [goLen]
  | cons c rest ih => simp [goLen, ih]; omega

theorem goLen_replicate (n : Nat) (c : Char) :
    goLen (List.replicate n c) = n * charBytes c := by
  induction n with
  | zero => simp [goLen]
  | succ m ih => rw [List.replicate_succ]; simp [goLen, ih]; ring

theorem takeBytes_replicate_a (n m : Nat) :
    takeBytes n (List.replicate m 'a') = List.replicate (min n m) 'a' := by
  induction m generalizing n with
  | zero => simp [takeBytes]
  | succ k ih =>
    rw [List.replicate_succ]
    cases n with
    | zero => simp [takeBytes, charBytes]
    | succ j =>
      have h1 : charBytes 'a' ≤ j + 1 := by simp [charBytes]
      simp only [takeBytes, if_pos h1]
      have h2 : charBytes 'a' = 1 := by rfl
      rw [h2]
      simp only [Nat.add_sub_cancel, ih]
      rw [Nat.succ_min_succ, List.replicate_succ]

theorem takeBytes_replicate_a_append (m : Nat) :
    ∀ n rest, m ≤ n →
      takeBytes n (List.replicate m 'a' ++ rest) = List.replicate m 'a' ++ takeBytes (n - m) rest := by
  induction m with
  | zero => intro n rest _; simp
  | succ k ih =>
    intro n rest hmn
    rw [List.replicate_succ]
    have h1 : charBytes 'a' ≤ n := by simp [charBytes]; omega
    simp only [List.cons_append, takeBytes, if_pos h1]
    have h2 : charBytes 'a' = 1 := by rfl
    rw [h2]
    simp only [List.append_eq]
    rw [ih (n - 1) rest (by omega)]
    have h3 : n - 1 - k = n - (k + 1) := by omega
    rw [h3]

theorem goLen_takeBytes_le (n : Nat) (l : GoStr) : goLen (takeBytes n l) ≤ n := by
  induction l generalizing n with
  | nil => simp [takeBytes, goLen]
  | cons c rest ih =>
    by_cases h : charBytes c ≤ n
    · simp only [takeBytes, if_pos h, goLen]
      have := ih (n - charBytes c)
      omega
    · simp only [takeBytes, if_neg h, goLen]
      omega

theorem mem_collapseColonsAux {c : Char} :
    ∀ (l : GoStr) (b : Bool), c ∈ collapseColonsAux b l → c = ':' ∨ c ∈ l := by
  intro l
  induction l with
  | nil => intro b h; simp [collapseColonsAux] at h
  | cons d rest ih =>
    intro b h
    by_cases hd : d = ':'
    · subst hd
      cases b with
      | true =>
        simp only [collapseColonsAux, if_pos rfl, if_pos rfl] at h
        rcases ih true h with h1 | h1
        · exact Or.inl h1
        · exact Or.inr (List.mem_cons_of_mem _ h1)
      | false =>
        simp only [collapseColonsAux, if_pos rfl] at h
        rcases List.mem_cons.mp h with h1 | h1
        · exact Or.inl h1
        · rcases ih true h1 with h2 | h2
          · exact Or.inl h2
          · exact Or.inr (List.mem_cons_of_mem _ h2)
    · simp only [collapseColonsAux, if_neg hd] at h
      rcases List.mem_cons.mp h with h1 | h1
      · subst h1; exact Or.inr (List.mem_cons_self _ _)
      · rcases ih false h1 with h2 | h2
        · exact Or.inl h2
        · exact Or.inr (List.mem_cons_of_mem _ h2)

theorem collapseColonsAux_cons_colon_false (tl : GoStr) :
    collapseColonsAux false (':' :: tl) = ':' :: collapseColonsAux true tl := by
  simp [collapseColonsAux]

theorem collapseColonsAux_cons_colon_true (tl : GoStr) :
    collapseColonsAux true (':' :: tl) = collapseColonsAux true tl := by
  simp [collapseColonsAux]

theorem collapseColonsAux_cons_other {d : Char} (b : Bool) (hd : d ≠ ':') (tl : GoStr) :
    collapseColonsAux b (d :: tl) = d :: collapseColonsAux false tl := by
  cases b <;> simp [collapseColonsAux, hd]

theorem collapseColonsAux_true_head :
    ∀ (l : GoStr) (c : Char) (rest : GoStr),
      collapseColonsAux true l = c :: rest → c ≠ ':' := by
  intro l
  induction l with
  | nil => intro c rest h; simp [collapseColonsAux] at h
  | cons d tl ih =>
    intro c rest h
    by_cases hd : d = ':'
    · subst hd
      rw [collapseColonsAux_cons_colon_true] at h
      exact ih c rest h
    · rw [collapseColonsAux_cons_other true hd] at h
      injection h with h1 _
      rw [← h1]
      exact hd

theorem collapseColonsAux_chain :
    ∀ (l : GoStr) (b : Bool), List.Chain' RNoRun (collapseColonsAux b l) := by
  intro l
  induction l with
  | nil => intro b; exact List.chain'_nil
  | cons d tl ih =>
    intro b
    by_cases hd : d = ':'
    · subst hd
      cases b with
      | true =>
        rw [collapseColonsAux_cons_colon_true]
        exact ih true
      | false =>
        rw [collapseColonsAux_cons_colon_false, List.chain'_cons']
        refine ⟨?_, ih true⟩
        intro y hy
        have hsome : collapseColonsAux true tl = y :: (collapseColonsAux true tl).tail := by
          cases hcl : collapseColonsAux true tl with
          | nil => rw [hcl] at hy; simp at hy
          | cons z zs =>
            rw [hcl] at hy
            simp only [List.head?_cons, Option.mem_def, Option.some.injEq] at hy
            rw [← hy]
            rfl
        have hy' : y ≠ ':' := collapseColonsAux_true_head tl y _ hsome
        exact fun hcontra => hy' hcontra.2
    · rw [collapseColonsAux_cons_other b hd, List.chain'_cons']
      refine ⟨?_, ih false⟩
      intro y _
      exact fun hcontra => hd hcontra.1

theorem collapseColonsAux_eq_self :
    ∀ (l : GoStr), List.Chain' RNoRun l →
      collapseColonsAux false l = l ∧
        (l.head? ≠ some ':' → collapseColonsAux true l = l) := by
  intro l
  induction l with
  | nil => exact fun _ => ⟨rfl, fun _ => rfl⟩
  | cons d tl ih =>
    intro h
    have hh := (List.chain'_cons'.mp h).1
    have ht := (List.chain'_cons'.mp h).2
    have IH := ih ht
    constructor
    · by_cases hd : d = ':'
      · subst hd
        rw [collapseColonsAux_cons_colon_false]
        have htlhead : tl.head? ≠ some ':' := by
          cases htl : tl.head? with
          | none => simp
          | some y =>
            have hy : RNoRun ':' y := hh y (by rw [htl]; rfl)
            have hyne : y ≠ ':' := fun hc => hy ⟨rfl, hc⟩
            simp [hyne]
        rw [IH.2 htlhead]
      · rw [collapseColonsAux_cons_other false hd, IH.1]
    · intro hhd
      have hd : d ≠ ':' := by
        intro hc
        exact hhd (by rw [hc]; rfl)
      rw [collapseColonsAux_cons_other true hd, IH.1]

theorem mem_replaceSpaces {c : Char} {l : GoStr} (h : c ∈ replaceSpaces l) :
    (c = '_' ∨ c ∈ l) ∧ c ≠ ' ' := by
  rcases List.mem_map.mp h with ⟨d, hd, hfd⟩
  by_cases hsp : d = ' '
  · rw [hsp] at hfd
    simp only [if_pos rfl] at hfd
    rw [← hfd]
    exact ⟨Or.inl rfl, by decide⟩
  · simp only [if_neg hsp] at hfd
    rw [← hfd]
    exact ⟨Or.inr hd, hsp⟩

theorem mem_trimColons {c : Char} {l : GoStr} (h : c ∈ trimColons l) : c ∈ l := by
  unfold trimColons trimRightColons trimLeftColons at h
  have h1 := List.mem_reverse.mp h
  have h2 := List.IsSuffix.mem h1 (List.dropWhile_suffix isColon)
  have h3 := List.mem_reverse.mp h2
  exact List.IsSuffix.mem h3 (List.dropWhile_suffix isColon)

theorem mem_normalizePipeline {c : Char} {l : GoStr} (h : c ∈ normalizePipeline l) :
    asciiToLower c = c ∧ isMetaChar c = false ∧ c ≠ ' ' := by
  unfold normalizePipeline at h
  have h1 := mem_trimColons h
  have h2 := mem_replaceSpaces h1
  have hcases : c = '_' ∨ c = ':' ∨ (isMetaChar c = false ∧ ∃ d, asciiToLower d = c) := by
    rcases h2.1 with hc | hc
    · exact Or.inl hc
    · rcases mem_collapseColonsAux _ false hc with hc2 | hc2
      · exact Or.inr (Or.inl hc2)
      · refine Or.inr (Or.inr ⟨?_, ?_⟩)
        · have hmeta := List.of_mem_filter hc2
          simpa using hmeta
        · have hmem := List.mem_of_mem_filter hc2
          rcases List.mem_map.mp hmem with ⟨d, _, hd⟩
          exact ⟨d, hd⟩
  rcases hcases with hc | hc | ⟨hmeta, d, hd⟩
  · subst hc; exact ⟨by decide, by decide, h2.2⟩
  · subst hc; exact ⟨by decide, by decide, h2.2⟩
  · refine ⟨?_, hmeta, h2.2⟩
    rw [← hd]
    exact asciiToLower_idem d

theorem chain_replaceSpaces {l : GoStr} (h : List.Chain' RNoRun l) :
    List.Chain' RNoRun (replaceSpaces l) := by
  unfold replaceSpaces
  rw [List.chain'_map]
  refine List.Chain'.imp ?_ h
  intro a b hab
  intro hcontra
  have hsp : ∀ x : Char, (if x = ' ' then '_' else x) = ':' → x = ':' := by
    intro x
    by_cases hx : x = ' ' <;> simp [hx]
  exact hab ⟨hsp a hcontra.1, hsp b hcontra.2⟩

theorem chain_reverse_noRun {l : GoStr} (h : List.Chain' RNoRun l) :
    List.Chain' RNoRun l.reverse := by
  rw [List.chain'_reverse]
  refine List.Chain'.imp ?_ h
  intro a b hab hcontra
  exact hab ⟨hcontra.2, hcontra.1⟩

theorem chain_trimColons {l : GoStr} (h : List.Chain' RNoRun l) :
    List.Chain' RNoRun (trimColons l) := by
  unfold trimColons trimRightColons trimLeftColons
  exact chain_reverse_noRun
    ((chain_reverse_noRun (h.suffix (List.dropWhile_suffix isColon))).suffix
      (List.dropWhile_suffix isColon))

theorem chain_normalizePipeline (l : GoStr) :
    List.Chain' RNoRun (normalizePipeline l) := by
  unfold normalizePipeline collapseColons
  exact chain_trimColons (chain_replaceSpaces (collapseColonsAux_chain _ false))

theorem dropWhile_dropWhile (p : Char → Bool) (l : GoStr) :
    (l.dropWhile p).dropWhile p = l.dropWhile p := by
  induction l with
  | nil => rfl
  | cons c rest ih =>
    by_cases h : p c = true
    · simp [List.dropWhile_cons, h, ih]
    · simp [List.dropWhile_cons, h]

theorem dropWhile_head_false {p : Char → Bool} :
    ∀ {l : GoStr} {c : Char} {rest : GoStr}, l.dropWhile p = c :: rest → p c = false := by
  intro l
  induction l with
  | nil => intro c rest h; simp [List.dropWhile_nil] at h
  | cons d tl ih =>
    intro c rest h
    by_cases hd : p d = true
    · rw [List.dropWhile_cons, if_pos hd] at h
      exact ih h
    · rw [List.dropWhile_cons, if_neg hd] at h
      injection h with h1 _
      rw [← h1]
      exact Bool.of_not_eq_true hd

theorem trimRightColons_idem (l : GoStr) :
    trimRightColons (trimRightColons l) = trimRightColons l := by
  unfold trimRightColons
  rw [List.reverse_reverse, dropWhile_dropWhile]

theorem trimLeftColons_trimRightColons {l : GoStr} (hl : trimLeftColons l = l) :
    trimLeftColons (trimRightColons l) = trimRightColons l := by
  unfold trimLeftColons at hl
  unfold trimLeftColons trimRightColons
  cases hcase : l with
  | nil => rfl
  | cons c rest =>
    rw [hcase] at hl
    have hc : isColon c = false := dropWhile_head_false hl
    have hrev : (c :: rest).reverse = rest.reverse ++ [c] := by simp
    rw [hrev, List.dropWhile_append]
    by_cases hemp : (rest.reverse.dropWhile isColon).isEmpty = true
    · rw [if_pos hemp]
      simp [List.dropWhile_cons, hc]
    · rw [if_neg hemp]
      simp [List.reverse_append, List.dropWhile_cons, hc]

theorem trimColons_idem (l : GoStr) : trimColons (trimColons l) = trimColons l := by
  unfold trimColons
  have h1 : trimLeftColons (trimLeftColons l) = trimLeftColons l :=
    dropWhile_dropWhile isColon l
  rw [trimLeftColons_trimRightColons h1, trimRightColons_idem]

theorem normalizePipeline_idem (l : GoStr) :
    normalizePipeline (normalizePipeline l) = normalizePipeline l := by
  have hmap : (normalizePipeline l).map asciiToLower = normalizePipeline l :=
    map_eq_self_of (fun c hc => (mem_normalizePipeline hc).1)
  have hstrip : stripMeta (normalizePipeline l) = normalizePipeline l := by
    unfold stripMeta
    refine List.filter_eq_self.mpr (fun c hc => ?_)
    have := (mem_normalizePipeline hc).2.1
    simp [this]
  have hcollapse : collapseColons (normalizePipeline l) = normalizePipeline l :=
    (collapseColonsAux_eq_self _ (chain_normalizePipeline l)).1
  have hspaces : replaceSpaces (normalizePipeline l) = normalizePipeline l := by
    unfold replaceSpaces
    refine map_eq_self_of (fun c hc => ?_)
    have := (mem_normalizePipeline hc).2.2
    simp [this]
  have htrim : trimColons (normalizePipeline l) = normalizePipeline l :=
    trimColons_idem (replaceSpaces (collapseColons (stripMeta (List.map asciiToLower l))))
  show trimColons (replaceSpaces (collapseColons (stripMeta
    (List.map asciiToLower (normalizePipeline l))))) = normalizePipeline l
  rw [show List.map asciiToLower (normalizePipeline l) = normalizePipeline l from hmap,
    hstrip, hcollapse, hspaces, htrim]

theorem goLen_pathRedisController_le (l : GoStr) :
    goLen (pathRedisController l) ≤ maxSizeData := by
  unfold pathRedisController
  by_cases hl : l = []
  · rw [if_pos hl]
    simp [goLen, maxSizeData]
  · rw [if_neg hl]
    unfold truncateMax
    by_cases ht : goLen (normalizePipeline l) > maxSizeData
    · rw [if_pos ht]
      exact goLen_takeBytes_le _ _
    · rw [if_neg ht]
      omega

theorem stripMeta_replicate_a (n : Nat) :
    stripMeta (List.replicate n 'a') = List.replicate n 'a' := by
  refine List.filter_eq_self.mpr (fun c hc => ?_)
  rw [List.eq_of_mem_replicate hc]
  decide

theorem collapseColonsAux_replicate_a :
    ∀ (n : Nat) (b : Bool) (rest : GoStr),
      collapseColonsAux b (List.replicate (n + 1) 'a' ++ rest) =
        List.replicate (n + 1) 'a' ++ collapseColonsAux false rest := by
  intro n
  induction n with
  | zero =>
    intro b rest
    rw [List.replicate_succ, List.replicate]
    simp only [List.cons_append, List.nil_append]
    rw [collapseColonsAux_cons_other b (by decide)]
  | succ k ih =>
    intro b rest
    rw [List.replicate_succ]
    simp only [List.cons_append]
    rw [collapseColonsAux_cons_other b (by decide), ih false rest]

theorem trimLeftColons_cons_nonColon {c : Char} (hc : isColon c = false) (l : GoStr) :
    trimLeftColons (c :: l) = c :: l := by
  simp [trimLeftColons, List.dropWhile_cons, hc]

theorem normalizePipeline_replicate_a (n : Nat) :
    normalizePipeline (List.replicate (n + 1) 'a') = List.replicate (n + 1) 'a' := by
  unfold normalizePipeline
  rw [List.map_replicate, show asciiToLower 'a' = 'a' by decide, stripMeta_replicate_a]
  have hcollapse : collapseColons (List.replicate (n + 1) 'a') = List.replicate (n + 1) 'a' := by
    unfold collapseColons
    have := collapseColonsAux_replicate_a n false []
    simpa [collapseColonsAux] using this
  rw [hcollapse]
  have hspaces : replaceSpaces (List.replicate (n + 1) 'a') = List.replicate (n + 1) 'a' := by
    unfold replaceSpaces
    rw [List.map_replicate]
    simp
  rw [hspaces]
  unfold trimColons
  rw [List.replicate_succ, trimLeftColons_cons_nonColon (by decide)]
  unfold trimRightColons
  rw [← List.replicate_succ, List.reverse_replicate, List.replicate_succ,
    List.dropWhile_cons]
  simp only [show isColon 'a' = false by decide, Bool.false_eq_true, if_false]
  rw [← List.replicate_succ, List.reverse_replicate]

theorem goLen_replicate_a (n : Nat) : goLen (List.replicate n 'a') = n := by
  rw [goLen_replicate, show charBytes 'a' = 1 by rfl, Nat.mul_one]

theorem pathRedisController_replicate_a_overflow (n : Nat) (h : maxSizeData < n + 1) :
    pathRedisController (List.replicate (n + 1) 'a') = List.replicate maxSizeData 'a' := by
  unfold pathRedisController
  rw [if_neg (by rw [List.replicate_succ]; exact List.cons_ne_nil _ _)]
  rw [normalizePipeline_replicate_a]
  unfold truncateMax
  rw [goLen_replicate_a, if_pos (by omega), takeBytes_replicate_a]
  congr 1
  omega

theorem replaceSpaces_replicate_a_append (n : Nat) (rest : GoStr) :
    replaceSpaces (List.replicate n 'a' ++ rest) =
      List.replicate n 'a' ++ replaceSpaces rest := by
  unfold replaceSpaces
  rw [List.map_append, List.map_replicate]
  simp

theorem stripMeta_append (l₁ l₂ : GoStr) :
    stripMeta (l₁ ++ l₂) = stripMeta l₁ ++ stripMeta l₂ := by
  unfold stripMeta
  exact List.filter_append _ _

theorem normalizePipeline_replicate_a_colon_aa (n : Nat) :
    normalizePipeline (List.replicate (n + 1) 'a' ++ [':', 'a', 'a']) =
      List.replicate (n + 1) 'a' ++ [':', 'a', 'a'] := by
  unfold normalizePipeline
  rw [List.map_append, List.map_replicate, show asciiToLower 'a' = 'a' by decide,
    show List.map asciiToLower [':', 'a', 'a'] = [':', 'a', 'a'] by decide,
    stripMeta_append, stripMeta_replicate_a,
    show stripMeta [':', 'a', 'a'] = [':', 'a', 'a'] by rfl]
  unfold collapseColons
  rw [collapseColonsAux_replicate_a n false,
    show collapseColonsAux false [':', 'a', 'a'] = [':', 'a', 'a'] by rfl]
  rw [replaceSpaces_replicate_a_append,
    show replaceSpaces [':', 'a', 'a'] = [':', 'a', 'a'] by rfl]
  unfold trimColons
  rw [List.replicate_succ, List.cons_append, trimLeftColons_cons_nonColon (by decide),
    ← List.cons_append, ← List.replicate_succ]
  unfold trimRightColons
  rw [List.reverse_append, List.reverse_replicate,
    show ([':', 'a', 'a'] : GoStr).reverse = ['a', 'a', ':'] by rfl]
  rw [show (['a', 'a', ':'] : GoStr) ++ List.replicate (n + 1) 'a' =
    'a' :: (['a', ':'] ++ List.replicate (n + 1) 'a') by rfl]
  rw [List.dropWhile_cons]
  simp only [show isColon 'a' = false by decide, Bool.false_eq_true, if_false]
  rw [show ('a' : Char) :: (['a', ':'] ++ List.replicate (n + 1) 'a') =
    (['a', 'a', ':'] : GoStr) ++ List.replicate (n + 1) 'a' by rfl]
  rw [List.reverse_append, List.reverse_replicate,
    show (['a', 'a', ':'] : GoStr).reverse = [':', 'a', 'a'] by rfl]

theorem normalizePipeline_replicate_a_colon (n : Nat) :
    normalizePipeline (List.replicate (n + 1) 'a' ++ [':']) =
      List.replicate (n + 1) 'a' := by
  unfold normalizePipeline
  rw [List.map_append, List.map_replicate, show asciiToLower 'a' = 'a' by decide,
    show List.map asciiToLower [':'] = [':'] by decide,
    stripMeta_append, stripMeta_replicate_a, show stripMeta [':'] = [':'] by rfl]
  unfold collapseColons
  rw [collapseColonsAux_replicate_a n false,
    show collapseColonsAux false [':'] = [':'] by rfl]
  rw [replaceSpaces_replicate_a_append, show replaceSpaces [':'] = [':'] by rfl]
  unfold trimColons
  rw [List.replicate_succ, List.cons_append, trimLeftColons_cons_nonColon (by decide),
    ← List.cons_append, ← List.replicate_succ]
  unfold trimRightColons
  rw [List.reverse_append, List.reverse_replicate,
    show ([':'] : GoStr).reverse = [':'] by rfl]
  rw [show ([':'] : GoStr) ++ List.replicate (n + 1) 'a' =
    ':' :: List.replicate (n + 1) 'a' by rfl]
  rw [List.dropWhile_cons]
  simp only [show isColon ':' = true by decide, if_true]
  rw [List.replicate_succ, List.dropWhile_cons]
  simp only [show isColon 'a' = false by decide, Bool.false_eq_true, if_false]
  rw [← List.replicate_succ, List.reverse_replicate]

theorem goLen_replicate_a_append (n : Nat) (rest : GoStr) :
    goLen (List.replicate n 'a' ++ rest) = n + goLen rest := by
  rw [goLen_append, goLen_replicate_a]

theorem pathRedisController_near_ceiling (n : Nat) (h : maxSizeData = n + 2) :
    pathRedisController (List.replicate (n + 1) 'a' ++ [':', 'a', 'a']) =
      List.replicate (n + 1) 'a' ++ [':'] := by
  unfold pathRedisController
  rw [if_neg (by rw [List.replicate_succ]; simp)]
  rw [normalizePipeline_replicate_a_colon_aa]
  unfold truncateMax
  rw [goLen_replicate_a_append, show goLen [':', 'a', 'a'] = 3 by rfl,
    if_pos (by omega)]
  rw [takeBytes_replicate_a_append (n + 1) maxSizeData [':', 'a', 'a'] (by omega)]
  congr 1
  rw [show maxSizeData - (n + 1) = 1 by omega]
  rfl

theorem pathRedisController_strips_trailing_colon (n : Nat) (h : n + 1 ≤ maxSizeData) :
    pathRedisController (List.replicate (n + 1) 'a' ++ [':']) =
      List.replicate (n + 1) 'a' := by
  unfold pathRedisController
  rw [if_neg (by rw [List.replicate_succ]; simp)]
  rw [normalizePipeline_replicate_a_colon]
  unfold truncateMax
  rw [goLen_replicate_a, if_neg (by omega)]

/-- C5: key-path normalization joins segments with ':', lower-cases,
strips the meta-characters '*', '?', '[', ']', '.', collapses separator
runs, replaces spaces with underscores and trims separators — but '!'
is not a stripped meta-character, so the segment list
["User Profile", "Name!"] normalizes to "user_profile:name!" (amended
from the claimed "user_profile:name"); ["", "x"] and the empty list
both fail in the InvalidKeyPath family. -/
theorem c5_normalization_concrete :
    slicePathsConvertor (some ["User Profile".toList, "Name!".toList]) =
        Except.ok ("user_profile:name!".toList) ∧
      isInvalidKeyPathErr (slicePathsConvertor (some ["".toList, "x".toList])) = true ∧
      isInvalidKeyPathErr (slicePathsConvertor (some ([] : List GoStr))) = true :=
  ⟨by rfl, by rfl, by rfl⟩

/-- C5 counterexample: on the claim's own concrete input
["User Profile", "Name!"] the code produces "user_profile:name!", not
the claimed "user_profile:name" — the '!' survives because the stripped
class is exactly '*', '?', '[', ']', '.'. -/
theorem c5_counterexample :
    slicePathsConvertor (some ["User Profile".toList, "Name!".toList]) =
        Except.ok ("user_profile:name!".toList) ∧
      ("user_profile:name!".toList == "user_profile:name".toList) = false :=
  ⟨by rfl, by rfl⟩

/-- C6 (amended): normalization never fails with KeySizeExceeded.  A
key whose normalized form exceeds the 512 MiB ceiling is silently
truncated to exactly the ceiling by `pathRedisController` before
`checkMaxSizeKey` runs, so the size check can never fire and every
returned key fits the ceiling. -/
theorem c6_truncates_instead_of_error :
    (∀ ks, isSizeExceededErr (slicePathsConvertor ks) = false) ∧
      (∀ l, goLen (pathRedisController l) ≤ maxSizeData) := by
  refine ⟨?_, goLen_pathRedisController_le⟩
  intro ks
  cases ks with
  | none => rfl
  | some l =>
    by_cases h1 : l.length = 0
    · simp [slicePathsConvertor, h1, isSizeExceededErr]
    · cases h2 : firstEmptyIdx 0 l with
      | some i => simp [slicePathsConvertor, h1, h2, isSizeExceededErr]
      | none =>
        by_cases h3 : pathRedisController (goJoin [':'] l) = []
        · simp [slicePathsConvertor, h1, h2, h3, isSizeExceededErr]
        · have h4 : checkMaxSizeKey (pathRedisController (goJoin [':'] l)) = none := by
            unfold checkMaxSizeKey
            rw [if_neg]
            have := goLen_pathRedisController_le (goJoin [':'] l)
            omega
          simp [slicePathsConvertor, h1, h2, h3, h4, isSizeExceededErr]

theorem slicePathsConvertor_single_overflow (n : Nat) (h : maxSizeData < n + 1) :
    slicePathsConvertor (some [List.replicate (n + 1) 'a']) =
      Except.ok (List.replicate maxSizeData 'a') := by
  have hne : List.replicate (n + 1) 'a' ≠ ([] : GoStr) := by
    rw [List.replicate_succ]
    exact List.cons_ne_nil _ _
  have hpath := pathRedisController_replicate_a_overflow n h
  have hnemax : List.replicate maxSizeData 'a' ≠ ([] : GoStr) := by
    have hmp : maxSizeData = (maxSizeData - 1) + 1 := by
      have : 0 < maxSizeData := by norm_num [maxSizeData]
      omega
    rw [hmp, List.replicate_succ]
    exact List.cons_ne_nil _ _
  have hchk : checkMaxSizeKey (List.replicate maxSizeData 'a') = none := by
    unfold checkMaxSizeKey
    rw [goLen_replicate_a, if_neg (by omega)]
  have hfei : firstEmptyIdx 0 [List.replicate (n + 1) 'a'] = none := by
    unfold firstEmptyIdx
    rw [if_neg hne]
    rfl
  have hlen : ¬ ([List.replicate (n + 1) 'a'].length = 0) := by
    simp
  simp only [slicePathsConvertor]
  rw [if_neg hlen, hfei]
  have hjoin : goJoin [':'] [List.replicate (n + 1) 'a'] = List.replicate (n + 1) 'a' := rfl
  rw [hjoin, hpath, if_neg hnemax, hchk]

/-- C6 counterexample: a single segment of 536870913 'a's normalizes to
a form one byte over the ceiling, yet `slicePathsConvertor` returns the
key truncated to exactly 536870912 bytes instead of the claimed
KeySizeExceeded error. -/
theorem c6_counterexample :
    slicePathsConvertor (some [List.replicate 536870913 'a']) =
        Except.ok (List.replicate 536870912 'a') ∧
      maxSizeData < goLen (normalizePipeline (goJoin [':'] [List.replicate 536870913 'a'])) ∧
      isSizeExceededErr (slicePathsConvertor (some [List.replicate 536870913 'a'])) = false := by
  have e : (536870913 : Nat) = 536870912 + 1 := by norm_num
  have hmaxv : maxSizeData = 536870912 := by norm_num [maxSizeData]
  have hmain : slicePathsConvertor (some [List.replicate 536870913 'a']) =
      Except.ok (List.replicate 536870912 'a') := by
    rw [e, slicePathsConvertor_single_overflow 536870912 (by norm_num [maxSizeData]), hmaxv]
  refine ⟨hmain, ?_, by rw [hmain]; rfl⟩
  rw [show goJoin [':'] [List.replicate 536870913 'a'] = List.replicate 536870913 'a' from rfl]
  rw [e, normalizePipeline_replicate_a 536870912, goLen_replicate_a, hmaxv]
  omega

/-- C7 (amended): key normalization is idempotent on every key whose
normalized form fits the 512 MiB ceiling (no truncation):
`pathRedisController (pathRedisController k) = pathRedisController k`.
When truncation fires it can cut directly after a colon, whose removal
by the second pass breaks idempotence. -/
theorem c7_idempotent_without_truncation (k : GoStr)
    (h : goLen (normalizePipeline k) ≤ maxSizeData) :
    pathRedisController (pathRedisController k) = pathRedisController k := by
  by_cases hk : k = []
  · subst hk
    rfl
  · have hP : pathRedisController k = normalizePipeline k := by
      unfold pathRedisController truncateMax
      rw [if_neg hk, if_neg (by omega)]
    rw [hP]
    by_cases hN : normalizePipeline k = []
    · rw [hN]
      rfl
    · unfold pathRedisController truncateMax
      rw [if_neg hN, normalizePipeline_idem, if_neg (by omega)]

/-- C7 witness: a small concrete key, far below the ceiling. -/
theorem c7_idempotent_witness :
    goLen (normalizePipeline ("User Profile:Name!".toList)) ≤ maxSizeData ∧
      pathRedisController (pathRedisController ("User Profile:Name!".toList)) =
        pathRedisController ("User Profile:Name!".toList) :=
  ⟨by decide, c7_idempotent_without_truncation ("User Profile:Name!".toList) (by decide)⟩

/-- C7 counterexample: for the key of 536870911 'a's followed by
":aa", normalization truncates to 536870911 'a's followed by ":";
normalizing again trims that trailing colon, so
normalize (normalize k) ≠ normalize k. -/
theorem c7_counterexample :
    (pathRedisController (pathRedisController
          (List.replicate 536870911 'a' ++ [':', 'a', 'a'])) ==
        pathRedisController (List.replicate 536870911 'a' ++ [':', 'a', 'a'])) = false := by
  have e : (536870911 : Nat) = 536870910 + 1 := by norm_num
  have h1 : pathRedisController (List.replicate 536870911 'a' ++ [':', 'a', 'a']) =
      List.replicate 536870911 'a' ++ [':'] := by
    rw [e]
    exact pathRedisController_near_ceiling 536870910 (by norm_num [maxSizeData])
  have h2 : pathRedisController (List.replicate 536870911 'a' ++ [':']) =
      List.replicate 536870911 'a' := by
    rw [e]
    exact pathRedisController_strips_trailing_colon 536870910 (by norm_num [maxSizeData])
  rw [h1, h2]
  refine beq_eq_false_iff_ne.mpr ?_
  intro heq
  have hlen := congrArg List.length heq
  rw [List.length_append, List.length_replicate] at hlen
  have hone : ([':'] : GoStr).length = 1 := rfl
  rw [hone] at hlen
  omega

/-- C8: with the other descriptor fields valid (host passes
`isValidHost`, password non-empty, db index non-negative), the full
`validateRedisConfConn` accepts the descriptor exactly when the port
lies in 1024..65535; in particular port 80 (privileged) and 70000 (out
of range) are rejected while 6379 with a non-empty password passes. -/
theorem c8_port_validation (po : GoStr → Bool) (conf : RedisConfConn)
    (hhost : isValidHost po conf.Host = true)
    (hpw : conf.Password ≠ [])
    (hdb : 0 ≤ conf.DB) :
    validateRedisConfConn po conf = none ↔ 1024 ≤ conf.Port ∧ conf.Port ≤ 65535 := by
  have hhostne : conf.Host ≠ [] := by
    intro hc
    rw [hc] at hhost
    simp [isValidHost] at hhost
  unfold validateRedisConfConn
  rw [if_neg hhostne, if_neg (by simp [hhost])]
  constructor
  · intro h
    by_cases h0 : conf.Port = 0
    · rw [if_pos h0] at h
      simp at h
    · rw [if_neg h0] at h
      by_cases hr : conf.Port < 1 ∨ conf.Port > 65535
      · rw [if_pos hr] at h
        simp at h
      · rw [if_neg hr] at h
        by_cases hp : conf.Port < 1024
        · rw [if_pos hp] at h
          simp at h
        · push_neg at hr
          exact ⟨by omega, by omega⟩
  · intro hrange
    rw [if_neg (by omega), if_neg (by omega), if_neg (by omega), if_neg hpw,
      if_neg (by omega)]

/-- C8 witness: host "localhost", port 6379, non-empty password, db 0
passes validation. -/
theorem c8_port_validation_witness :
    validateRedisConfConn parseIPNone
      ⟨"localhost".toList, 6379, [], "x".toList, 0, ⟨0, 0, 0, 0, 0, 0⟩⟩ = none :=
  (c8_port_validation parseIPNone
      ⟨"localhost".toList, 6379, [], "x".toList, 0, ⟨0, 0, 0, 0, 0, 0⟩⟩
      (by decide) (by decide) (by decide)).mpr (by decide)

/-- C1 (amended): for every message on the expiry-intent channel
`__keyevent@0__:expire`, the classifier performs no follow-up TTL query
at all — the event type is decided from the channel name alone,
independent of any store state, and is always the dedicated TTL-set
type `EventTypeExpire`, which is distinct from both `EventTypeExpired`
and `EventTypeCreated`. -/
theorem c1_expire_channel_classification (g : GoStr → GetOutcome) (now : Nat)
    (payload : GoStr) :
    (processEventMessage g now
        ⟨"__keyevent@0__:expire".toList, payload⟩).EventType = EventTypeExpire ∧
      (EventTypeExpire == EventTypeExpired) = false ∧
      (EventTypeExpire == EventTypeCreated) = false :=
  ⟨rfl, by decide, by decide⟩

/-- C1 counterexample: a message on the expiry-intent channel whose key
the store reports as missing (exactly the situation where the claim
demands eventType = Expired) is classified `EventTypeExpire`, which is
neither Expired nor Created — no TTL query informs the decision. -/
theorem c1_counterexample :
    (processEventMessage getAlwaysMissing 0
        ⟨"__keyevent@0__:expire".toList, "k".toList⟩).EventType = EventTypeExpire ∧
      (EventTypeExpire == EventTypeExpired) = false ∧
      (EventTypeExpire == EventTypeCreated) = false :=
  ⟨rfl, by decide, by decide⟩

/-- C3: the receive loop never emits an event whose type is
`EventTypeUnknown`: every event handed to the channel send has a
different type, and a message classifying as Unknown (unrecognized
channel or unrecognized suffix) produces no send at all. -/
theorem c3_unknown_events_dropped (g : GoStr → GetOutcome) (now : Nat)
    (msg : RedisMessage) :
    (∀ e, emittedEvent g now msg = some e → (e.EventType == EventTypeUnknown) = false) ∧
      ((processEventMessage g now msg).EventType = EventTypeUnknown →
        emittedEvent g now msg = none) := by
  constructor
  · intro e he
    unfold emittedEvent at he
    by_cases h : (processEventMessage g now msg).EventType = EventTypeUnknown
    · rw [if_pos h] at he
      simp at he
    · rw [if_neg h] at he
      injection he with h1
      rw [← h1]
      exact beq_eq_false_iff_ne.mpr h
  · intro h
    unfold emittedEvent
    rw [if_pos h]

/-- C3 witness: a `:set` message yields a non-Unknown event; a message
on an unrelated channel is dropped. -/
theorem c3_unknown_events_dropped_witness :
    ((processEventMessage getAlwaysMissing 0
        ⟨"__keyevent@0__:set".toList, "user".toList⟩).EventType == EventTypeUnknown) = false ∧
      emittedEvent getAlwaysMissing 0 ⟨"unrelated".toList, "user".toList⟩ = none :=
  ⟨(c3_unknown_events_dropped getAlwaysMissing 0
      ⟨"__keyevent@0__:set".toList, "user".toList⟩).1 _ rfl,
    (c3_unknown_events_dropped getAlwaysMissing 0
      ⟨"unrelated".toList, "user".toList⟩).2 rfl⟩

/-- C4: on the expiry channel, failure of the value-reconstruction read
(key not found, or timeout/transport failure) never aborts emission and
carries no error to the consumer: the event is still produced, with the
empty string as value; emission happens for every store outcome. -/
theorem c4_value_fetch_failure_absorbed (g : GoStr → GetOutcome) (now : Nat) (key : GoStr)
    (h : g key = GetOutcome.missing ∨ g key = GetOutcome.failure) :
    processExpirationMessage g now ⟨"__keyevent@0__:expire".toList, key⟩ =
        some ⟨key, [], now⟩ ∧
      ∀ g2 : GoStr → GetOutcome,
        (processExpirationMessage g2 now
          ⟨"__keyevent@0__:expire".toList, key⟩).isSome = true := by
  constructor
  · unfold processExpirationMessage getKeyValueBeforeExpiration
    rw [if_pos rfl]
    rcases h with h | h <;> rw [h]
  · intro g2
    unfold processExpirationMessage
    rw [if_pos rfl]
    rfl

/-- C4 witness: with every read reporting `redis.Nil`, the expiry event
for key "user" is still emitted with an empty value. -/
theorem c4_value_fetch_failure_absorbed_witness :
    processExpirationMessage getAlwaysMissing 0
        ⟨"__keyevent@0__:expire".toList, "user".toList⟩ =
      some ⟨"user".toList, [], 0⟩ :=
  (c4_value_fetch_failure_absorbed getAlwaysMissing 0 ("user".toList) (Or.inl rfl)).1

theorem digitChar_ne_zero : ∀ m, m < 10 → m ≠ 0 → Nat.digitChar m ≠ '0' := by
  decide

theorem decChars_head_ne_zero :
    ∀ n : Nat, n ≠ 0 → ∃ d rest, decChars n = d :: rest ∧ d ≠ '0' := by
  intro n
  induction n using Nat.strong_induction_on with
  | _ n ih =>
    intro hn
    rw [decChars, dif_neg hn]
    by_cases h10 : n / 10 = 0
    · rw [h10, decChars, dif_pos rfl]
      refine ⟨Nat.digitChar (n % 10), [], by simp, ?_⟩
      have hlt : n < 10 := by omega
      have hmod : n % 10 = n := Nat.mod_eq_of_lt hlt
      rw [hmod]
      exact digitChar_ne_zero n hlt hn
    · obtain ⟨d, rest, hd1, hd2⟩ :=
        ih (n / 10) (Nat.div_lt_self (Nat.pos_of_ne_zero hn) (by omega)) h10
      exact ⟨d, rest ++ [Nat.digitChar (n % 10)], by rw [hd1]; simp, hd2⟩

theorem natToChars_head_ne_zero {n : Nat} (h : n ≠ 0) :
    ∃ d rest, natToChars n = d :: rest ∧ d ≠ '0' := by
  unfold natToChars
  rw [if_neg h]
  exact decChars_head_ne_zero n h

theorem isPrefixOf_append_same :
    ∀ (a b c : GoStr), List.isPrefixOf (a ++ b) (a ++ c) = List.isPrefixOf b c := by
  intro a
  induction a with
  | nil => intro b c; rfl
  | cons x xs ih =>
    intro b c
    simp only [List.cons_append, List.isPrefixOf_cons₂, beq_self_eq_true, Bool.true_and]
    exact ih b c

theorem hasPrefixGo_keyevent_ne {d : Char} (hd : d ≠ '0') (ds suffix : GoStr) :
    hasPrefixGo ("__keyevent@0__:".toList)
      ("__keyevent@".toList ++ (d :: ds) ++ "__:".toList ++ suffix) = false := by
  unfold hasPrefixGo
  rw [show ("__keyevent@0__:" : String).toList =
    "__keyevent@".toList ++ ('0' :: "__:".toList) from rfl]
  rw [show "__keyevent@".toList ++ (d :: ds) ++ "__:".toList ++ suffix =
    "__keyevent@".toList ++ (d :: (ds ++ ("__:".toList ++ suffix))) by simp]
  rw [isPrefixOf_append_same]
  rw [List.isPrefixOf_cons₂]
  rw [show (('0' : Char) == d) = false from
    beq_eq_false_iff_ne.mpr (fun hc => hd hc.symm)]
  rfl

/-- C10: the notification manager subscribes only to the hardcoded
`__keyevent@0__` channels, regardless of the configured db index, and
even a message arriving on the keyspace-event channel of another
database classifies as Unknown and is never emitted: the library can
only ever report events of database 0. -/
theorem c10_db_zero_only (db : Nat) (suffix payload : GoStr) (g : GoStr → GetOutcome)
    (now : Nat) (hdb : db ≠ 0) :
    subscribedChannels.contains (keyeventChannel db suffix) = false ∧
      emittedEvent g now ⟨keyeventChannel db suffix, payload⟩ = none := by
  obtain ⟨d, ds, hds, hd0⟩ := natToChars_head_ne_zero hdb
  have hch : keyeventChannel db suffix =
      "__keyevent@".toList ++ (d :: ds) ++ "__:".toList ++ suffix := by
    unfold keyeventChannel
    rw [hds]
  have hpre : hasPrefixGo ("__keyevent@0__:".toList) (keyeventChannel db suffix) = false := by
    rw [hch]
    exact hasPrefixGo_keyevent_ne hd0 ds suffix
  have hnech : ∀ ch : GoStr, hasPrefixGo ("__keyevent@0__:".toList) ch = true →
      (keyeventChannel db suffix == ch) = false := by
    intro ch hchpre
    refine beq_eq_false_iff_ne.mpr ?_
    intro heq
    rw [heq, hchpre] at hpre
    exact absurd hpre (by simp)
  constructor
  · have e1 := hnech ("__keyevent@0__:expire".toList) (by decide)
    have e2 := hnech ("__keyevent@0__:expired".toList) (by decide)
    have e3 := hnech ("__keyevent@0__:set".toList) (by decide)
    have e4 := hnech ("__keyevent@0__:del".toList) (by decide)
    simp only [subscribedChannels, List.contains, List.elem, e1, e2, e3, e4]
  · have hunknown : (processEventMessage g now
        ⟨keyeventChannel db suffix, payload⟩).EventType = EventTypeUnknown := by
      unfold processEventMessage
      rw [if_neg (by rw [hpre]; simp)]
    unfold emittedEvent
    rw [if_pos hunknown]

/-- C10 witness: database 1's `:set` channel is not subscribed and its
messages produce no event. -/
theorem c10_db_zero_only_witness :
    subscribedChannels.contains (keyeventChannel 1 ("set".toList)) = false ∧
      emittedEvent getAlwaysMissing 0 ⟨keyeventChannel 1 ("set".toList), "k".toList⟩ = none :=
  c10_db_zero_only 1 ("set".toList) ("k".toList) getAlwaysMissing 0 (by decide)

theorem listener_closed_inv :
    ∀ s, ListenerReachable s →
      (s.chanClosed = true → s.stopPhase = StopPC.closedDone) ∧
        ((s.stopPhase = StopPC.joined ∨ s.stopPhase = StopPC.closedDone) →
          s.loop = LoopPC.exited) := by
  intro s hs
  induction hs with
  | init =>
    constructor
    · intro h
      simp [listenerInit] at h
    · intro h
      simp [listenerInit] at h
  | step hr hstep ih =>
    cases hstep with
    | recvMessage hw =>
      constructor
      · intro hc
        exact ih.1 hc
      · intro hj
        have hex := ih.2 hj
        rw [hw] at hex
        simp at hex
    | recvDropped hw =>
      exact ih
    | recvCtxDone hw hcan =>
      constructor
      · intro hc
        exact ih.1 hc
      · intro _
        rfl
    | sendDelivered hw =>
      constructor
      · intro hc
        exact ih.1 hc
      · intro hj
        have hex := ih.2 hj
        rw [hw] at hex
        simp at hex
    | sendCtxDone hw hcan =>
      constructor
      · intro hc
        exact ih.1 hc
      · intro _
        rfl
    | stopCancel hph =>
      constructor
      · intro hc
        have := ih.1 hc
        rw [hph] at this
        simp at this
      · intro hj
        simp at hj
    | stopJoin hph hex =>
      constructor
      · intro hc
        have := ih.1 hc
        rw [hph] at this
        simp at this
      · intro _
        exact hex
    | stopClose hph =>
      constructor
      · intro _
        rfl
      · intro _
        exact ih.2 (Or.inl hph)

/-- C2: in every state reachable under any interleaving of message
arrival and a `stop()` call, the receive loop is never at its
channel-send suspension point while the hand-off channel is closed, and
the channel is closed only after the loop has fully exited — `stop()`
cancels first, joins `wg.Wait()` second, and closes the channel only
then. -/
theorem c2_no_send_after_close (s : ListenerState) (hs : ListenerReachable s) :
    (s.loop = LoopPC.sending → s.chanClosed = false) ∧
      (s.chanClosed = true → s.loop = LoopPC.exited) := by
  have hinv := listener_closed_inv s hs
  constructor
  · intro hsend
    cases hc : s.chanClosed
    · rfl
    · have h1 := hinv.1 hc
      have h2 := hinv.2 (Or.inr h1)
      rw [hsend] at h2
      simp at h2
  · intro hc
    exact hinv.2 (Or.inr (hinv.1 hc))

/-- C2 witness: the state reached after one message arrival, with the
loop at the send point, has the channel open. -/
theorem c2_no_send_after_close_witness :
    (ListenerState.mk LoopPC.sending StopPC.idle false false).chanClosed = false :=
  (c2_no_send_after_close (ListenerState.mk LoopPC.sending StopPC.idle false false)
      (ListenerReachable.step ListenerReachable.init
        (ListenerStep.recvMessage listenerInit rfl))).1 rfl

/-- C9 (amended): on a nil receiver, the key/object/list operations and
the manager's `start` return the "instance is nil" error, but the
surface is not uniform: `Close` and `GetRedisClient` (and the unguarded
`SetObj` revision) dereference the nil receiver, while the channel
getters return a nil channel and the manager's `stop` is a silent
no-op. -/
theorem c9_nil_surface_behavior :
    nilCallSetObj none = NilCallResult.instanceNilError ∧
      nilCallSetString none = NilCallResult.instanceNilError ∧
      nilCallGetObj none = NilCallResult.instanceNilError ∧
      nilCallGetString none = NilCallResult.instanceNilError ∧
      nilCallDel none = NilCallResult.instanceNilError ∧
      nilCallFindKeyByPattern none = NilCallResult.instanceNilError ∧
      nilCallFindObj none = NilCallResult.instanceNilError ∧
      nilCallGetKeys none = NilCallResult.instanceNilError ∧
      nilCallExistsKey none = NilCallResult.instanceNilError ∧
      nilCallLPush none = NilCallResult.instanceNilError ∧
      nilCallRPush none = NilCallResult.instanceNilError ∧
      nilCallLPop none = NilCallResult.instanceNilError ∧
      nilCallRPop none = NilCallResult.instanceNilError ∧
      nilCallLRange none = NilCallResult.instanceNilError ∧
      nilCallLLen none = NilCallResult.instanceNilError ∧
      nilCallManagerStart none = NilCallResult.instanceNilError ∧
      nilCallSetObjUnguarded none = NilCallResult.nilDereference ∧
      nilCallClose none = NilCallResult.nilDereference ∧
      nilCallGetRedisClient none = NilCallResult.nilDereference ∧
      nilCallListenChannelKeyEventManager none = NilCallResult.nilReturn ∧
      nilCallManagerGetKeyEventChannel none = NilCallResult.nilReturn ∧
      nilCallManagerStop none = NilCallResult.silentNoop := by
  decide

/-- C9 counterexample: `Close` and `GetRedisClient` on a nil facade
dereference the nil receiver — a runtime fault, not the claimed
"instance is nil" error — and the same holds for the unguarded `SetObj`
revision the claim cites. -/
theorem c9_counterexample :
    nilCallClose none = NilCallResult.nilDereference ∧
      nilCallGetRedisClient none = NilCallResult.nilDereference ∧
      nilCallSetObjUnguarded none = NilCallResult.nilDereference ∧
      (NilCallResult.nilDereference == NilCallResult.instanceNilError) = false := by
  decide
